import Mathlib

/-!
Verification development for the twitchModTools ingestion / identity /
deduplication pipeline.  The Python sources are embedded shallowly:

* `md5hex` is a full executable MD5 (the id computation in `utils.py` uses
  `hashlib.md5(...).hexdigest()`), over the UTF-8 bytes of the input string.
* `DT` models `datetime.datetime`; `DT.isoformat` mirrors
  `datetime.isoformat()` (microseconds printed as 6 digits only when nonzero).
* `Message` models the message dicts flowing through the pipeline; an absent
  dict key (or a `None` value, which every consulted code path treats the same
  way as an absent key) is `Option.none`.
* External collaborators (the `dateutil` date parser, the wall clock, the
  classifier, the embedding service and the two stores) are passed in as
  explicit function arguments, exactly at the boundary where the Python code
  calls them.
-/

set_option maxRecDepth 1000000

namespace TMT

/-! ## MD5 (hashlib.md5, hexdigest) -/

/-- 32-bit truncation. -/
def w32 (n : Nat) : Nat := n % 4294967296

/-- 32-bit left rotation (arguments assumed `< 2^32`). -/
def rotl (x s : Nat) : Nat := w32 (x <<< s ||| x >>> (32 - s))

/-- MD5 round constants `K[i] = floor(|sin(i+1)| * 2^32)`. -/
def md5K : List Nat :=
  [3614090360, 3905402710, 606105819, 3250441966, 4118548399, 1200080426,
   2821735955, 4249261313, 1770035416, 2336552879, 4294925233, 2304563134,
   1804603682, 4254626195, 2792965006, 1236535329, 4129170786, 3225465664,
   643717713, 3921069994, 3593408605, 38016083, 3634488961, 3889429448,
   568446438, 3275163606, 4107603335, 1163531501, 2850285829, 4243563512,
   1735328473, 2368359562, 4294588738, 2272392833, 1839030562, 4259657740,
   2763975236, 1272893353, 4139469664, 3200236656, 681279174, 3936430074,
   3572445317, 76029189, 3654602809, 3873151461, 530742520, 3299628645,
   4096336452, 1126891415, 2878612391, 4237533241, 1700485571, 2399980690,
   4293915773, 2240044497, 1873313359, 4264355552, 2734768916, 1309151649,
   4149444226, 3174756917, 718787259, 3951481745]

/-- MD5 per-round shift amounts. -/
def md5S (i : Nat) : Nat :=
  let row := i / 16
  let col := i % 4
  let tbl : List Nat :=
    if row = 0 then [7, 12, 17, 22]
    else if row = 1 then [5, 9, 14, 20]
    else if row = 2 then [4, 11, 16, 23]
    else [6, 10, 15, 21]
  tbl.getD col 0

/-- Bitwise complement on 32 bits. -/
def notW (x : Nat) : Nat := 4294967295 ^^^ x

/-- One MD5 round: state `(a, b, c, d)`, message schedule `M`, round `i`. -/
def md5Round (M : Nat → Nat) (st : Nat × Nat × Nat × Nat) (i : Nat) :
    Nat × Nat × Nat × Nat :=
  let (a, b, c, d) := st
  let fg : Nat × Nat :=
    if i < 16 then ((b &&& c) ||| (notW b &&& d), i)
    else if i < 32 then ((d &&& b) ||| (notW d &&& c), (5 * i + 1) % 16)
    else if i < 48 then (b ^^^ c ^^^ d, (3 * i + 5) % 16)
    else (c ^^^ (b ||| notW d), (7 * i) % 16)
  let f := w32 (fg.1 + a + md5K.getD i 0 + M fg.2)
  (d, w32 (b + rotl f (md5S i)), b, c)

/-- Little-endian 32-bit word from 4 bytes. -/
def leWord (b0 b1 b2 b3 : Nat) : Nat := b0 + b1 * 256 + b2 * 65536 + b3 * 16777216

/-- The 16-word message schedule of a 64-byte chunk. -/
def chunkWord (chunk : List Nat) (j : Nat) : Nat :=
  leWord (chunk.getD (4 * j) 0) (chunk.getD (4 * j + 1) 0)
    (chunk.getD (4 * j + 2) 0) (chunk.getD (4 * j + 3) 0)

/-- Process one 64-byte chunk. -/
def md5Chunk (st : Nat × Nat × Nat × Nat) (chunk : List Nat) :
    Nat × Nat × Nat × Nat :=
  let (a0, b0, c0, d0) := st
  let r := (List.range 64).foldl (md5Round (chunkWord chunk)) (a0, b0, c0, d0)
  (w32 (a0 + r.1), w32 (b0 + r.2.1), w32 (c0 + r.2.2.1), w32 (d0 + r.2.2.2))

/-- Split a byte list into 64-byte chunks (structural recursion on a fuel
bound so the kernel can evaluate it). -/
def toChunksAux : Nat → List Nat → List (List Nat)
  | 0, _ => []
  | _ + 1, [] => []
  | fuel + 1, l => l.take 64 :: toChunksAux fuel (l.drop 64)

/-- Split a byte list into 64-byte chunks. -/
def toChunks (l : List Nat) : List (List Nat) := toChunksAux (l.length + 1) l

/-- MD5 padding: `0x80`, zeros to 56 mod 64, then the 64-bit little-endian
bit length. -/
def md5Pad (bytes : List Nat) : List Nat :=
  let len := bytes.length
  let zeros := (119 - len % 64) % 64
  let bitLen := (len * 8) % 18446744073709551616
  bytes ++ [128] ++ List.replicate zeros 0 ++
    ((List.range 8).map fun i => bitLen >>> (8 * i) % 256)

/-- Little-endian bytes of a 32-bit word. -/
def wordBytes (w : Nat) : List Nat := [w % 256, w >>> 8 % 256, w >>> 16 % 256, w >>> 24 % 256]

/-- Hex digit character. -/
def hexDigit (n : Nat) : Char :=
  if n < 10 then Char.ofNat (48 + n) else Char.ofNat (87 + n)

/-- Two lowercase hex digits of a byte. -/
def byteHex (b : Nat) : List Char := [hexDigit (b / 16), hexDigit (b % 16)]

/-- MD5 digest of a byte list, as a 32-char lowercase hex string. -/
def md5Bytes (bytes : List Nat) : String :=
  let st := (toChunks (md5Pad bytes)).foldl md5Chunk
    (1732584193, 4023233417, 2562383102, 271733878)
  String.mk (([st.1, st.2.1, st.2.2.1, st.2.2.2].flatMap wordBytes).flatMap byteHex)

/-- UTF-8 encoding of one character. -/
def utf8Bytes (c : Char) : List Nat :=
  let n := c.toNat
  if n < 128 then [n]
  else if n < 2048 then [192 + n / 64, 128 + n % 64]
  else if n < 65536 then [224 + n / 4096, 128 + n / 64 % 64, 128 + n % 64]
  else [240 + n / 262144, 128 + n / 4096 % 64, 128 + n / 64 % 64, 128 + n % 64]

/-- `hashlib.md5(s.encode('utf-8')).hexdigest()`. -/
def md5hex (s : String) : String := md5Bytes (s.toList.flatMap utf8Bytes)

/-! ## datetime model -/

/-- A `datetime.datetime` value. -/
structure DT where
  year : Nat
  month : Nat
  day : Nat
  hour : Nat
  minute : Nat
  second : Nat
  usec : Nat
deriving DecidableEq, Repr

/-- Zero-left-pad the decimal form of `n` to width `w`. -/
def padNum (w n : Nat) : String :=
  let s := toString n
  String.mk (List.replicate (w - s.length) '0') ++ s

/-- `datetime.isoformat()`: `YYYY-MM-DDTHH:MM:SS[.ffffff]` (fraction only when
the microsecond field is nonzero). -/
def DT.isoformat (t : DT) : String :=
  padNum 4 t.year ++ "-" ++ padNum 2 t.month ++ "-" ++ padNum 2 t.day ++ "T" ++
    padNum 2 t.hour ++ ":" ++ padNum 2 t.minute ++ ":" ++ padNum 2 t.second ++
    (if t.usec = 0 then "" else "." ++ padNum 6 t.usec)

/-! ## Message dicts and small Python string helpers -/

/-- A `timestamp` dict value: either a `datetime` or a string. -/
inductive TsVal where
  | dt (t : DT)
  | str (s : String)
deriving DecidableEq, Repr

/-- A message dict.  `none` models an absent key (or a `None` value; every
consulted code path treats the two identically). -/
structure Message where
  username : Option String := none
  timestamp : Option TsVal := none
  timestamp_str : Option String := none
  text : Option String := none
  file_source : Option String := none
  message_id : Option String := none
  raw_line : Option String := none
  pattern_used : Option Int := none
deriving DecidableEq, Repr

/-- Python's `\s` / default `str.strip()` whitespace (ASCII range). -/
def isPySpace (c : Char) : Bool :=
  c = ' ' || c = '\t' || c = '\n' || c = Char.ofNat 11 || c = Char.ofNat 12 || c = '\r'

/-- `str.strip()` (ASCII whitespace; the log inputs are ASCII-delimited). -/
def pyStrip (s : String) : String :=
  String.mk (((s.toList.dropWhile isPySpace).reverse.dropWhile isPySpace).reverse)

/-- `str.lower()` (ASCII case folding; usernames in the sources are ASCII). -/
def pyLower (s : String) : String := String.mk (s.toList.map Char.toLower)

/-! ## utils.py -/

/-- `utils.generate_message_id`.  `now` is the wall clock consulted by the
`datetime.now()` fallback.  A `username` key holding `None` stringifies in
Python to `"None"`, which the normalization collapses to the same
`"bot_or_unknown"` sentinel as the absent-key default `''`, so `Option.none`
covers both. -/
def generate_message_id (now : DT) (m : Message) : String :=
  let timestamp_str :=
    match m.timestamp, m.timestamp_str with
    | some (TsVal.dt t), _ => t.isoformat
    | ts, some s =>
      if s ≠ "" then s
      else match ts with
        | some (TsVal.str v) => v
        | _ => now.isoformat
    | ts, none =>
      match ts with
      | some (TsVal.str v) => v
      | _ => now.isoformat
  let text_hash := (md5hex (m.text.getD "")).take 8
  let raw_username := pyLower (pyStrip (m.username.getD ""))
  let username :=
    if raw_username = "" ∨ raw_username = "unknown" ∨ raw_username = "none" ∨
        raw_username = "null" then "bot_or_unknown"
    else raw_username
  username ++ "_" ++ timestamp_str ++ "_" ++ text_hash

/-- `utils.enrich_message`.  `parse_date` is `dateutil.parser.parse`
(an external library; `none` models its raising), `now` is the wall clock,
and `file_source` is the keyword argument with its Python default. -/
def enrich_message (parse_date : String → Option DT) (now : DT) (m : Message)
    (file_source : String := "unknown") : Message :=
  let ts : DT :=
    match m.timestamp with
    | some (TsVal.dt t) => t
    | some (TsVal.str s) => if s = "" then now else (parse_date s).getD now
    | none => now
  let username : String :=
    match m.username with
    | some u => if u = "" then "unknown" else u
    | none => "unknown"
  let m1 : Message :=
    { m with
      timestamp := some (TsVal.dt ts)
      timestamp_str := some ts.isoformat
      username := some username
      file_source := some (if file_source = "" then "unknown" else file_source) }
  { m1 with message_id := some (generate_message_id now m1) }

/-! ## deduplication_manager.py -/

/-- Loop of `DeduplicationManager._remove_internal_duplicates`, carrying the
`seen_ids` set.  On the enriched messages it receives, `message_id` is always
present (`getD ""` stands for the `msg['message_id']` lookup). -/
def remove_internal_duplicates_aux (seen : List String) :
    List Message → List Message
  | [] => []
  | m :: rest =>
    let msg_id := m.message_id.getD ""
    if msg_id ∈ seen then remove_internal_duplicates_aux seen rest
    else m :: remove_internal_duplicates_aux (msg_id :: seen) rest

/-- `DeduplicationManager._remove_internal_duplicates` (Tier 1). -/
def remove_internal_duplicates (messages : List Message) : List Message :=
  remove_internal_duplicates_aux [] messages

/-- `DeduplicationManager._debug_inconsistencies`: the two printed divergence
sets (`postgres_only`, `qdrant_only`). -/
def debug_inconsistencies (postgres_ids qdrant_ids : List String) :
    List String × List String :=
  (postgres_ids.filter (fun i => decide (i ∉ qdrant_ids)),
   qdrant_ids.filter (fun i => decide (i ∉ postgres_ids)))

/-- `DeduplicationManager._remove_external_duplicates` (Tier 2), given the two
stores' existence answers; a message survives iff its id avoids
`all_existing_ids`, the union of the two answers. -/
def remove_external_duplicates (existing_ids_postgres existing_ids_qdrant : List String)
    (messages : List Message) : List Message :=
  messages.filter
    (fun m => decide (m.message_id.getD "" ∉ existing_ids_postgres ++ existing_ids_qdrant))

/-- `DeduplicationManager.filter_new_messages`.  The two stores'
`get_existing_message_ids` are the `pg_query`/`qd_query` oracles (queried with
the Tier-1 survivors, as in the source); `is_fresh_collection` is the vector
store's bootstrap flag.  The `except` fallback path (store errors) is outside
the claims and not modelled. -/
def filter_new_messages (parse_date : String → Option DT) (now : DT)
    (is_fresh_collection : Bool) (pg_query qd_query : List Message → List String)
    (messages : List Message) : List Message :=
  let enriched_messages := messages.map (fun msg => enrich_message parse_date now msg)
  if is_fresh_collection then enriched_messages
  else
    let unique_messages := remove_internal_duplicates enriched_messages
    remove_external_duplicates (pg_query unique_messages) (qd_query unique_messages)
      unique_messages

/-! ## Analyses, alerts, severity -/

/-- The classifier's verdict (`analyzer.analyze_message` result dict). -/
structure Analysis where
  toxicity_score : ℚ := 0
  spam_probability : ℚ := 0
  sentiment : String := "neutral"
  categories : List String := []
  requires_action : Bool := false
  action_type : String := "ignore"
  reasoning : String := ""
  message_id : Option String := none
deriving DecidableEq, Repr

/-- `MessageProcessor._calculate_severity` (batch path; `>=` comparisons). -/
def calculate_severity (analysis : Analysis) : String :=
  let toxicity := analysis.toxicity_score
  let spam := analysis.spam_probability
  if toxicity ≥ 0.8 ∨ spam ≥ 0.9 then "CRITICAL"
  else if toxicity ≥ 0.6 ∨ spam ≥ 0.7 then "HIGH"
  else if toxicity ≥ 0.4 ∨ spam ≥ 0.5 then "MEDIUM"
  else "LOW"

/-- `OptimizedModeradorSemantico._calculate_priority` (realtime path; strict
`>` comparisons). -/
def calculate_priority (analysis : Analysis) : String :=
  let toxicity := analysis.toxicity_score
  let spam := analysis.spam_probability
  if toxicity > 0.8 ∨ spam > 0.9 then "CRITICAL"
  else if toxicity > 0.6 ∨ spam > 0.7 then "HIGH"
  else if toxicity > 0.4 ∨ spam > 0.5 then "MEDIUM"
  else "LOW"

/-- A batch-path alert (`MessageProcessor._create_alert`). -/
structure Alert where
  message_id : String
  username : String
  text : String
  timestamp : String
  toxicity : ℚ
  spam_probability : ℚ
  action : String
  reason : String
  categories : List String
  severity : String
deriving DecidableEq, Repr

/-- `MessageProcessor._create_alert`. -/
def create_alert (message : Message) (analysis : Analysis) : Alert :=
  { message_id := analysis.message_id.getD ""
    username := message.username.getD ""
    text := message.text.getD ""
    timestamp := message.timestamp_str.getD ""
    toxicity := analysis.toxicity_score
    spam_probability := analysis.spam_probability
    action := analysis.action_type
    reason := analysis.reasoning
    categories := analysis.categories
    severity := calculate_severity analysis }

/-! ## message_processor.py: batch processing -/

/-- Store-write events observed while processing one message: the vector-store
`add_message` attempt (its returned `point_id`, `""` for a falsy/failed
result) and the relational `save_analysis` attempt (its boolean result). -/
inductive Ev where
  | vecWrite (point_id : String)
  | dbWrite (ok : Bool)
deriving DecidableEq, Repr

/-- External collaborators of the batch processor: classifier, embedding
service (a falsy `None`/`[]` result is the empty list), and the two stores'
write calls (`add_message` returning its point id, `""` when it fails or
raises; `save_analysis` returning success). -/
structure Oracles where
  analyze_message : Message → Analysis
  get_embedding : String → List ℚ
  add_message : Message → Analysis → List ℚ → String
  save_analysis : Message → Analysis → String → Bool

/-- `MessageProcessor._save_with_verification`: vector store first; the
relational write happens only when `point_id` is truthy, and a relational
failure is logged without rolling back the vector write. -/
def save_with_verification (o : Oracles) (message : Message) (analysis : Analysis)
    (embedding : List ℚ) : String × List Ev :=
  let point_id := o.add_message message analysis embedding
  if point_id ≠ "" then
    (point_id, [Ev.vecWrite point_id, Ev.dbWrite (o.save_analysis message analysis point_id)])
  else ("", [Ev.vecWrite point_id])

/-- The exempt identity hard-coded in both processors. -/
def streamer_username : String := "niaghtmares"

/-- Body of the per-message loop of `MessageProcessor._process_single_batch`:
enrich, (dead) username guard, classify, embed, dual-persist, alert.  Returns
the alert produced (if any), the updated `alert_ids` set, and the store-write
events.  A missing `text` key raises `KeyError` inside the loop's
`try`/`except`, which skips the message (`continue`). -/
def process_batch_message (o : Oracles) (parse_date : String → Option DT) (now : DT)
    (alert_ids : List String) (message : Message) :
    Option Alert × List String × List Ev :=
  let msg := enrich_message parse_date now message
  let message_id := msg.message_id.getD ""
  if msg.username.getD "" = "" then (none, alert_ids, [])
  else
    let analysis := { o.analyze_message msg with message_id := some message_id }
    match msg.text with
    | none => (none, alert_ids, [])
    | some text =>
      let embedding := o.get_embedding text
      if embedding ≠ [] then
        let saved := save_with_verification o msg analysis embedding
        if analysis.requires_action ∧ analysis.message_id.getD "" ∉ alert_ids ∧
            pyLower (msg.username.getD "") ≠ streamer_username then
          (some (create_alert msg analysis), analysis.message_id.getD "" :: alert_ids,
            saved.2)
        else (none, alert_ids, saved.2)
      else (none, alert_ids, [])

/-- `MessageProcessor._process_single_batch`: the loop over the batch,
threading `alert_ids` and collecting alerts and store events. -/
def process_single_batch (o : Oracles) (parse_date : String → Option DT) (now : DT)
    (batch : List Message) (alert_ids : List String) :
    List Alert × List String × List Ev :=
  match batch with
  | [] => ([], alert_ids, [])
  | m :: rest =>
    let r := process_batch_message o parse_date now alert_ids m
    let rs := process_single_batch o parse_date now rest r.2.1
    ((match r.1 with | some a => a :: rs.1 | none => rs.1), rs.2.1, r.2.2 ++ rs.2.2)

/-! ## realtime_moderator.py: keys and caches -/

/-- The `datetime` held by a realtime message (every message reaching the
realtime paths carries a parsed `datetime`; on anything else the Python code
would raise on `.isoformat()`). -/
def msgDT (m : Message) : DT :=
  match m.timestamp with
  | some (TsVal.dt t) => t
  | _ => ⟨1970, 1, 1, 0, 0, 0, 0⟩

/-- The realtime key `f"{username}_{timestamp.isoformat()}"` built at
`_quick_message_check` and `_process_message_batch_optimized`. -/
def realtime_message_id (username : String) (t : DT) : String :=
  username ++ "_" ++ t.isoformat

/-- `OptimizedModeradorSemantico._quick_message_check`: in-memory pre-filter
over the id cache and the content-hash cache; returns (already-seen?, updated
hash cache). -/
def quick_message_check (processed_message_cache message_hashes : List String)
    (message : Message) : Bool × List String :=
  let message_id := realtime_message_id (message.username.getD "") (msgDT message)
  if message_id ∈ processed_message_cache then (true, message_hashes)
  else
    let content_hash := md5hex ((message.username.getD "") ++ "_" ++
      (message.text.getD "") ++ "_" ++ (message.timestamp_str.getD ""))
    if content_hash ∈ message_hashes then (true, message_hashes)
    else (false, content_hash :: message_hashes)

/-- The realtime persisted-store check of `_process_message_batch_optimized`
(lines 167-173): keep a message iff its `username_timestamp` key avoids the
ids returned by `db.get_existing_message_ids`. -/
def realtime_final_filter (existing_ids : List String) (messages : List Message) :
    List Message :=
  messages.filter
    (fun msg => decide (realtime_message_id (msg.username.getD "") (msgDT msg) ∉ existing_ids))

/-! ## Spec-side definitions (for the identity claims) -/

/-- The spec's "normalized username" input to the id (§3: empty, `unknown`,
`none`, `null` collapse to the sentinel). -/
def spec_normalized_username (m : Message) : String :=
  let r := pyLower (pyStrip (m.username.getD ""))
  if r = "" ∨ r = "unknown" ∨ r = "none" ∨ r = "null" then "bot_or_unknown" else r

/-- The spec's "timestamp string form" input to the id. -/
def spec_timestamp_form (now : DT) (m : Message) : String :=
  match m.timestamp, m.timestamp_str with
  | some (TsVal.dt t), _ => t.isoformat
  | ts, some s =>
    if s ≠ "" then s
    else match ts with
      | some (TsVal.str v) => v
      | _ => now.isoformat
  | ts, none =>
    match ts with
    | some (TsVal.str v) => v
    | _ => now.isoformat

/-! ## chatterino_parser.py

The eight `re.match` patterns are rigid digit/charclass shapes followed by
greedy negated classes and a final `(.+)`, so each is deterministic; they are
embedded as character-list matchers returning the three capture groups
`(timestamp_str, username, text)`. -/

/-- Digit value of an ASCII digit character. -/
def digitVal (c : Char) : Nat := c.toNat - 48

/-- Match exactly `n` digit characters. -/
def digN : Nat → List Char → Option (List Char × List Char)
  | 0, cs => some ([], cs)
  | _ + 1, [] => none
  | n + 1, c :: cs =>
    if c.isDigit then (digN n cs).map (fun r => (c :: r.1, r.2)) else none

/-- Match one literal character. -/
def lit (ch : Char) : List Char → Option (List Char)
  | [] => none
  | c :: cs => if c = ch then some cs else none

/-- Greedy nonempty character-class match (`[class]+`). -/
def grabWhile (p : Char → Bool) (cs : List Char) : Option (List Char × List Char) :=
  let g := cs.takeWhile p
  if g.isEmpty then none else some (g, cs.dropWhile p)

/-- The final `(.+)` group: at least one character, stopping at `'\n'`
(regex `.` does not match a newline). -/
def textRest (cs : List Char) : Option String :=
  let t := cs.takeWhile (fun c => c ≠ '\n')
  if t.isEmpty then none else some (String.mk t)

/-- The 19-character `[0-9]{4}-[0-9]{2}-[0-9]{2} [0-9]{2}:[0-9]{2}:[0-9]{2}`
shape (the date/time separator is a parameter to share it with the `T`
variants). -/
def tsShape (sep : Char) (cs : List Char) : Option (List Char × List Char) := do
  let (a, r1) ← digN 4 cs
  let r2 ← lit '-' r1
  let (b, r3) ← digN 2 r2
  let r4 ← lit '-' r3
  let (c, r5) ← digN 2 r4
  let r6 ← lit sep r5
  let (d, r7) ← digN 2 r6
  let r8 ← lit ':' r7
  let (e, r9) ← digN 2 r8
  let r10 ← lit ':' r9
  let (f, r11) ← digN 2 r10
  pure (a ++ '-' :: b ++ '-' :: c ++ sep :: d ++ ':' :: e ++ ':' :: f, r11)

/-- Pattern 0: `\[(ts)\] <([^>]+)> (.+)`. -/
def pat0 (cs : List Char) : Option (String × String × String) := do
  let r0 ← lit '[' cs
  let (ts, r1) ← tsShape ' ' r0
  let r2 ← lit ']' r1
  let r3 ← lit ' ' r2
  let r4 ← lit '<' r3
  let (u, r5) ← grabWhile (fun c => c ≠ '>') r4
  let r6 ← lit '>' r5
  let r7 ← lit ' ' r6
  let t ← textRest r7
  pure (String.mk ts, String.mk u, t)

/-- Pattern 1: `(ts) \[([^\]]+)\]: (.+)`. -/
def pat1 (cs : List Char) : Option (String × String × String) := do
  let (ts, r1) ← tsShape ' ' cs
  let r2 ← lit ' ' r1
  let r3 ← lit '[' r2
  let (u, r4) ← grabWhile (fun c => c ≠ ']') r3
  let r5 ← lit ']' r4
  let r6 ← lit ':' r5
  let r7 ← lit ' ' r6
  let t ← textRest r7
  pure (String.mk ts, String.mk u, t)

/-- Pattern 2: `(ts) ([^:]+): (.+)`. -/
def pat2 (cs : List Char) : Option (String × String × String) := do
  let (ts, r1) ← tsShape ' ' cs
  let r2 ← lit ' ' r1
  let (u, r3) ← grabWhile (fun c => c ≠ ':') r2
  let r4 ← lit ':' r3
  let r5 ← lit ' ' r4
  let t ← textRest r5
  pure (String.mk ts, String.mk u, t)

/-- Pattern 3: `\[(ts)\] ([^:]+): (.+)`. -/
def pat3 (cs : List Char) : Option (String × String × String) := do
  let r0 ← lit '[' cs
  let (ts, r1) ← tsShape ' ' r0
  let r2 ← lit ']' r1
  let r3 ← lit ' ' r2
  let (u, r4) ← grabWhile (fun c => c ≠ ':') r3
  let r5 ← lit ':' r4
  let r6 ← lit ' ' r5
  let t ← textRest r6
  pure (String.mk ts, String.mk u, t)

/-- Pattern 4: `\[(....-..-..T..:..:..Z?)\] ([^:]+): (.+)`. -/
def pat4 (cs : List Char) : Option (String × String × String) := do
  let r0 ← lit '[' cs
  let (ts0, r1) ← tsShape 'T' r0
  let tsr1 : List Char × List Char :=
    match r1 with
    | 'Z' :: rest => (ts0 ++ ['Z'], rest)
    | _ => (ts0, r1)
  let r2 ← lit ']' tsr1.2
  let r3 ← lit ' ' r2
  let (u, r4) ← grabWhile (fun c => c ≠ ':') r3
  let r5 ← lit ':' r4
  let r6 ← lit ' ' r5
  let t ← textRest r6
  pure (String.mk tsr1.1, String.mk u, t)

/-- Pattern 5: `\[([0-9]{2}:[0-9]{2}:[0-9]{2})\] ([^:]+): (.+)`. -/
def pat5 (cs : List Char) : Option (String × String × String) := do
  let r0 ← lit '[' cs
  let (a, r1) ← digN 2 r0
  let r2 ← lit ':' r1
  let (b, r3) ← digN 2 r2
  let r4 ← lit ':' r3
  let (c, r5) ← digN 2 r4
  let r6 ← lit ']' r5
  let r7 ← lit ' ' r6
  let (u, r8) ← grabWhile (fun ch => ch ≠ ':') r7
  let r9 ← lit ':' r8
  let r10 ← lit ' ' r9
  let t ← textRest r10
  pure (String.mk (a ++ ':' :: b ++ ':' :: c), String.mk u, t)

/-- Pattern 6: `\[(ts\.[0-9]+)\] ([^:]+): (.+)`. -/
def pat6 (cs : List Char) : Option (String × String × String) := do
  let r0 ← lit '[' cs
  let (ts0, r1) ← tsShape ' ' r0
  let r2 ← lit '.' r1
  let (ds, r3) ← grabWhile Char.isDigit r2
  let r4 ← lit ']' r3
  let r5 ← lit ' ' r4
  let (u, r6) ← grabWhile (fun c => c ≠ ':') r5
  let r7 ← lit ':' r6
  let r8 ← lit ' ' r7
  let t ← textRest r8
  pure (String.mk (ts0 ++ '.' :: ds), String.mk u, t)

/-- Pattern 7: `(ts) ([^\s]+) (.+)`. -/
def pat7 (cs : List Char) : Option (String × String × String) := do
  let (ts, r1) ← tsShape ' ' cs
  let r2 ← lit ' ' r1
  let (u, r3) ← grabWhile (fun c => !isPySpace c) r2
  let r4 ← lit ' ' r3
  let t ← textRest r4
  pure (String.mk ts, String.mk u, t)

/-- `ChatterinoParser.patterns`, in source order. -/
def patterns : List (List Char → Option (String × String × String)) :=
  [pat0, pat1, pat2, pat3, pat4, pat5, pat6, pat7]

/-! `ChatterinoParser._parse_timestamp`: `datetime.strptime` against the
five formats in order.  The CPython `strptime` field regexes accept one or
two digits (`%Y` exactly four), enforce the per-field numeric ranges shown
(seconds up to 61), require the whole string to be consumed, and the final
`datetime` constructor additionally enforces `year >= 1`, a day valid for
the month, and seconds <= 59; a failure of any of these is the `ValueError`
the source catches before trying the next format. -/

/-- One numeric `strptime` field: two digits when the two-digit value is in
`[lo, hi]`, else one digit when in range (mirroring the generated regex
alternations, which prefer the two-digit branches). -/
def fieldNum (lo hi : Nat) : List Char → Option (Nat × List Char)
  | c1 :: c2 :: rest =>
    if c1.isDigit then
      if c2.isDigit then
        let v2 := digitVal c1 * 10 + digitVal c2
        if lo ≤ v2 ∧ v2 ≤ hi then some (v2, rest)
        else if lo ≤ digitVal c1 ∧ digitVal c1 ≤ hi then some (digitVal c1, c2 :: rest)
        else none
      else if lo ≤ digitVal c1 ∧ digitVal c1 ≤ hi then some (digitVal c1, c2 :: rest)
      else none
    else none
  | [c1] =>
    if c1.isDigit ∧ lo ≤ digitVal c1 ∧ digitVal c1 ≤ hi then some (digitVal c1, [])
    else none
  | [] => none

/-- Numeric value of a digit list. -/
def digitsVal (ds : List Char) : Nat := ds.foldl (fun a c => a * 10 + digitVal c) 0

/-- Gregorian leap year (as `calendar`/`datetime` use). -/
def isLeap (y : Nat) : Bool := y % 4 = 0 && (y % 100 ≠ 0 || y % 400 = 0)

/-- Days in a month. -/
def daysInMonth (y m : Nat) : Nat :=
  if m = 2 then (if isLeap y then 29 else 28)
  else if m = 4 ∨ m = 6 ∨ m = 9 ∨ m = 11 then 30
  else 31

/-- The "whole string consumed" check (`strptime` unconverted-data error). -/
def endOk : List Char → Option Unit
  | [] => some ()
  | _ :: _ => none

/-- `%Y-%m-%d<sep>%H:%M:%S`, optionally with a trailing literal `Z`. -/
def fmtDateTime (sep : Char) (requireZ : Bool) (s : String) : Option DT := do
  let (ys, r1) ← digN 4 s.toList
  let r2 ← lit '-' r1
  let (mo, r3) ← fieldNum 1 12 r2
  let r4 ← lit '-' r3
  let (d, r5) ← fieldNum 1 31 r4
  let r6 ← lit sep r5
  let (h, r7) ← fieldNum 0 23 r6
  let r8 ← lit ':' r7
  let (mi, r9) ← fieldNum 0 59 r8
  let r10 ← lit ':' r9
  let (se, r11) ← fieldNum 0 61 r10
  let r12 ← if requireZ then lit 'Z' r11 else some r11
  let _ ← endOk r12
  let y := digitsVal ys
  if 1 ≤ y ∧ d ≤ daysInMonth y mo ∧ se ≤ 59 then
    pure ⟨y, mo, d, h, mi, se, 0⟩
  else none

/-- `%H:%M:%S`: the source combines the parsed time with today's date. -/
def fmtHMS (now : DT) (s : String) : Option DT := do
  let (h, r1) ← fieldNum 0 23 s.toList
  let r2 ← lit ':' r1
  let (mi, r3) ← fieldNum 0 59 r2
  let r4 ← lit ':' r3
  let (se, r5) ← fieldNum 0 61 r4
  let _ ← endOk r5
  if se ≤ 59 then pure ⟨now.year, now.month, now.day, h, mi, se, 0⟩ else none

/-- `%Y-%m-%d %H:%M:%S.%f` (`%f`: one to six digits, right-padded to
microseconds). -/
def fmtMicro (s : String) : Option DT := do
  let (ys, r1) ← digN 4 s.toList
  let r2 ← lit '-' r1
  let (mo, r3) ← fieldNum 1 12 r2
  let r4 ← lit '-' r3
  let (d, r5) ← fieldNum 1 31 r4
  let r6 ← lit ' ' r5
  let (h, r7) ← fieldNum 0 23 r6
  let r8 ← lit ':' r7
  let (mi, r9) ← fieldNum 0 59 r8
  let r10 ← lit ':' r9
  let (se, r11) ← fieldNum 0 61 r10
  let r12 ← lit '.' r11
  let ds := r12.takeWhile Char.isDigit
  if ds.isEmpty then none
  else
    let used := ds.take 6
    let _ ← endOk (r12.drop used.length)
    let y := digitsVal ys
    if 1 ≤ y ∧ d ≤ daysInMonth y mo ∧ se ≤ 59 then
      pure ⟨y, mo, d, h, mi, se, digitsVal used * 10 ^ (6 - used.length)⟩
    else none

/-- `ChatterinoParser._parse_timestamp`: the five formats in source order,
first success wins, `none` when all fail. -/
def parse_timestamp (now : DT) (timestamp_str : String) : Option DT :=
  match fmtDateTime ' ' false timestamp_str with
  | some t => some t
  | none =>
    match fmtDateTime 'T' false timestamp_str with
    | some t => some t
    | none =>
      match fmtDateTime 'T' true timestamp_str with
      | some t => some t
      | none =>
        match fmtHMS now timestamp_str with
        | some t => some t
        | none => fmtMicro timestamp_str

/-- The message dict built for a successful pattern match (groups stripped,
`pattern_used` the pattern index). -/
def mkParsed (line : String) (i : Nat) (ts_str u text : String) (ts : DT) : Message :=
  { timestamp := some (TsVal.dt ts)
    timestamp_str := some ts_str
    username := some (pyStrip u)
    text := some (pyStrip text)
    raw_line := some line
    pattern_used := some (Int.ofNat i) }

/-- The complete outcome of trying pattern `i` on a line: its regex match
composed with timestamp parsing. -/
def patternFull (now : DT) (i : Nat) (line : String) : Option Message :=
  match patterns.get? i with
  | none => none
  | some p =>
    match p line.toList with
    | none => none
    | some g => (parse_timestamp now g.1).map (mkParsed line i g.1 g.2.1 g.2.2)

/-- The pattern loop of `ChatterinoParser._parse_line`: on a match whose
timestamp fails to parse, the loop falls through to the next pattern. -/
def tryPatternsAux (now : DT) (line : String) (i : Nat) :
    List (List Char → Option (String × String × String)) → Option Message
  | [] => none
  | p :: ps =>
    match p line.toList with
    | some g =>
      match parse_timestamp now g.1 with
      | some ts => some (mkParsed line i g.1 g.2.1 g.2.2 ts)
      | none => tryPatternsAux now line (i + 1) ps
    | none => tryPatternsAux now line (i + 1) ps

/-- `ChatterinoParser._parse_line`: the pattern loop, then (outside debug
mode) the colon fallback building a low-confidence message from
`line.split(':', 1)`. -/
def parse_line (now : DT) (debug_mode : Bool) (line : String) : Option Message :=
  match tryPatternsAux now line 0 patterns with
  | some m => some m
  | none =>
    if debug_mode then none
    else if line.toList.contains ':' then
      some { timestamp := some (TsVal.dt now)
             timestamp_str := some "unknown"
             username := some "bot_or_unknown"
             text := some (pyStrip (String.mk ((line.toList.dropWhile (fun c => c ≠ ':')).drop 1)))
             raw_line := some line
             pattern_used := some (-1) }
    else none

/-! ## realtime_moderator.py: the file tailer (`process_new_lines`)

The file is a character list, the per-file cursor a position into it;
`f.seek(pos); f.readlines()` is modelled by splitting the dropped suffix
after each `'\n'` (keeping the terminator, as `readlines` does), and
`f.tell()` by the end position. -/

/-- `readlines` splitting: pieces end after each `'\n'`; a final unterminated
piece is kept. -/
def splitLinesKeepAux : List Char → List Char → List (List Char)
  | [], acc => if acc.isEmpty then [] else [acc.reverse]
  | c :: rest, acc =>
    if c = '\n' then (acc.reverse ++ ['\n']) :: splitLinesKeepAux rest []
    else splitLinesKeepAux rest (c :: acc)

/-- `readlines` on a character list. -/
def splitLinesKeep (cs : List Char) : List (List Char) := splitLinesKeepAux cs []

/-- `OptimizedModeradorSemantico.process_new_lines`: read from the cursor,
advance the cursor to end of file, strip and parse the new lines
(`_parse_line` in non-debug mode, `file_source` set to the file name), and
hand the parsed messages to batch processing.  Returns the messages fed
onward and the new cursor. -/
def process_new_lines (now : DT) (file_name : String) (content : List Char)
    (pos : Nat) : List Message × Nat :=
  let new_lines := splitLinesKeep (content.drop pos)
  let new_pos := max pos content.length
  if new_lines.isEmpty then ([], new_pos)
  else
    (new_lines.filterMap (fun lcs =>
      let line := pyStrip (String.mk lcs)
      if line = "" then none
      else (parse_line now false line).map (fun m => { m with file_source := some file_name })),
     new_pos)

/-! ## Shared fixtures and helper lemmas -/

/-- A fixed wall-clock instant. -/
def now0 : DT := ⟨2025, 5, 30, 19, 31, 23, 0⟩

/-- A `dateutil.parser.parse` oracle that rejects every string. -/
def pd0 : String → Option DT := fun _ => none

/-- A plain well-formed raw message. -/
def msgBob : Message :=
  { username := some "bob", timestamp_str := some "2025-05-30 19:31:23", text := some "hi" }

/-- Enrichment always leaves a nonempty username. -/
theorem enrich_username_ne (pd : String → Option DT) (now : DT) (m : Message)
    (fs : String) : (enrich_message pd now m fs).username.getD "" ≠ "" := by
  unfold enrich_message
  cases hu : m.username with
  | none => simp
  | some u =>
    by_cases h : u = "" <;> simp [h]

/-- Enrichment stores exactly the id of the updated dict. -/
theorem enrich_message_id (pd : String → Option DT) (now : DT) (m : Message)
    (fs : String) :
    (enrich_message pd now m fs).message_id =
      some (generate_message_id now { enrich_message pd now m fs with message_id := m.message_id }) := by
  unfold enrich_message generate_message_id
  rfl

/-! ## Claim C1 -/

/-- C1 (amended): the canonical `message_id` factors exactly through the
three spec inputs — normalized username, timestamp string form, and the text
(through the first 8 hex chars of its MD5) — so recomputing it from identical
values of those inputs yields the identical id; but the realtime
persisted-store check filters on the different key
`username + "_" + timestamp.isoformat()`. -/
theorem message_id_purity_and_realtime_key (now : DT) (m : Message)
    (existing : List String) (msgs : List Message) (msg : Message) :
    (generate_message_id now m =
      spec_normalized_username m ++ "_" ++ spec_timestamp_form now m ++ "_" ++
        (md5hex (m.text.getD "")).take 8)
  ∧ (msg ∈ realtime_final_filter existing msgs ↔
      msg ∈ msgs ∧
        realtime_message_id (msg.username.getD "") (msgDT msg) ∉ existing) := by
  constructor
  · rfl
  · simp [realtime_final_filter, List.mem_filter]

/-- C1 (counterexample): two messages differing in both username and
timestamp string share the canonical id (the three parts are `_`-joined
without escaping, and the texts — hence the text hashes — agree), and the
key used by the realtime persisted-store check differs from the canonical
id of the same message. -/
theorem message_id_key_cex :
    generate_message_id now0
        { username := some "a_b", timestamp_str := some "c", text := some "t" } =
      generate_message_id now0
        { username := some "a", timestamp_str := some "b_c", text := some "t" }
  ∧ (some "a_b" : Option String) ≠ some "a"
  ∧ (some "c" : Option String) ≠ some "b_c"
  ∧ realtime_message_id "Alice" now0 ≠
      generate_message_id now0
        { username := some "Alice", timestamp := some (TsVal.dt now0), text := some "t" } := by
  refine ⟨by rfl, by decide, by decide, by decide⟩

/-! ## Claim C2 -/

/-- C2: enrichment is idempotent — re-enriching an enriched message changes
no field (even at a later wall-clock time and with a different date parser),
and in particular leaves `message_id` unchanged. -/
theorem enrich_message_idempotent (pd pd' : String → Option DT) (now now' : DT)
    (m : Message) :
    enrich_message pd' now' (enrich_message pd now m) = enrich_message pd now m := by
  obtain ⟨u, ts, tss, tx, fs, mid, rl, pu⟩ := m
  cases u with
  | none => rfl
  | some v =>
    by_cases hv : v = "" <;> simp [enrich_message, generate_message_id, hv]

/-! ## Claim C5 -/

/-- A classifier that always requests action, an embedding service that
always succeeds, and stores that accept the writes. -/
def oEmb1 : Oracles :=
  { analyze_message := fun _ => { requires_action := true, toxicity_score := 0.9 }
    get_embedding := fun _ => [1]
    add_message := fun _ _ _ => "pt1"
    save_analysis := fun _ _ _ => true }

/-- Same classifier and embedding service as `oEmb1`, but both store writes
fail. -/
def oEmb2 : Oracles :=
  { oEmb1 with add_message := fun _ _ _ => "", save_analysis := fun _ _ _ => false }

/-- Same classifier as `oEmb1`, but the embedding service returns the falsy
result. -/
def oEmbNone : Oracles := { oEmb1 with get_embedding := fun _ => [] }

/-- C5 (amended): in `_process_single_batch` a message yields an alert iff it
has a text, the embedding service returns a non-empty embedding for it, its
analysis has `requires_action`, its id has not already alerted in this run,
and its lower-cased author is not the exempt streamer; the produced alert
does not depend on the store-write oracles (persistence success is
irrelevant), but it does depend on embedding success. -/
theorem alert_iff_conditions (o : Oracles) (pd : String → Option DT) (now : DT)
    (alert_ids : List String) (m : Message) :
    ((process_batch_message o pd now alert_ids m).1.isSome ↔
      ((enrich_message pd now m).text.isSome ∧
        o.get_embedding ((enrich_message pd now m).text.getD "") ≠ [] ∧
        (o.analyze_message (enrich_message pd now m)).requires_action = true ∧
        (enrich_message pd now m).message_id.getD "" ∉ alert_ids ∧
        pyLower ((enrich_message pd now m).username.getD "") ≠ streamer_username))
  ∧ (∀ o' : Oracles, o'.analyze_message = o.analyze_message →
      o'.get_embedding = o.get_embedding →
      (process_batch_message o' pd now alert_ids m).1 =
        (process_batch_message o pd now alert_ids m).1) := by
  have hne := enrich_username_ne pd now m "unknown"
  constructor
  · simp only [process_batch_message, if_neg hne]
    cases htext : (enrich_message pd now m).text with
    | none => simp
    | some t =>
      by_cases hemb : o.get_embedding t = []
      · simp [hemb]
      · simp only [hemb, if_neg, ne_eq, not_false_eq_true, if_true]
        by_cases hcond : ((o.analyze_message (enrich_message pd now m)).requires_action = true ∧
            (enrich_message pd now m).message_id.getD "" ∉ alert_ids ∧
            pyLower ((enrich_message pd now m).username.getD "") ≠ streamer_username)
        · simp [hcond, hemb]
        · simp [hcond, hemb]
  · intro o' ha he
    simp only [process_batch_message, if_neg hne, ha, he]
    cases htext : (enrich_message pd now m).text with
    | none => rfl
    | some t =>
      dsimp only
      split_ifs <;> rfl

/-- C5 (witness): with failing stores the alert outcome is unchanged, and
with working collaborators the conditions are satisfiable and produce an
alert. -/
theorem alert_iff_conditions_witness :
    (process_batch_message oEmb2 pd0 now0 [] msgBob).1 =
      (process_batch_message oEmb1 pd0 now0 [] msgBob).1
  ∧ (process_batch_message oEmb1 pd0 now0 [] msgBob).1.isSome :=
  ⟨(alert_iff_conditions oEmb1 pd0 now0 [] msgBob).2 oEmb2 rfl rfl,
   (alert_iff_conditions oEmb1 pd0 now0 [] msgBob).1.mpr
     ⟨by decide, by simp [oEmb1], rfl, by simp, by decide⟩⟩

/-- C5 (counterexample): a message whose analysis requires action, whose id
is fresh, and whose author is not exempt still produces no alert when the
embedding service returns the falsy result — embedding success is a further
condition on alerting. -/
theorem alert_requires_embedding_cex :
    (oEmbNone.analyze_message (enrich_message pd0 now0 msgBob)).requires_action = true
  ∧ (enrich_message pd0 now0 msgBob).message_id.getD "" ∉ ([] : List String)
  ∧ pyLower ((enrich_message pd0 now0 msgBob).username.getD "") ≠ streamer_username
  ∧ (process_batch_message oEmbNone pd0 now0 [] msgBob).1 = none := by
  refine ⟨rfl, by simp, by decide, rfl⟩

/-! ## Claim C7 -/

/-- The trace of one `_save_with_verification` call: either the vector write
failed (and no relational write was attempted), or the vector write succeeded
and the relational write was attempted — and stays in the trace untouched
even when the relational write fails (no rollback). -/
theorem save_with_verification_shape (o : Oracles) (msg : Message) (an : Analysis)
    (emb : List ℚ) :
    (save_with_verification o msg an emb).2 = [Ev.vecWrite ""] ∨
      ∃ pid ok, pid ≠ "" ∧
        (save_with_verification o msg an emb).2 = [Ev.vecWrite pid, Ev.dbWrite ok] := by
  unfold save_with_verification
  by_cases hp : o.add_message msg an emb = ""
  · left
    simp [hp]
  · right
    refine ⟨o.add_message msg an emb,
      o.save_analysis msg an (o.add_message msg an emb), hp, ?_⟩
    simp [hp]

/-- C7: if the embedding service returns no embedding, neither store is
touched for the message on this attempt; and in every case the store trace is
empty, a single failed vector write (so no relational write without a vector
success), or a successful vector write followed by the relational attempt —
which is never rolled back when it fails. -/
theorem dual_write_discipline (o : Oracles) (pd : String → Option DT) (now : DT)
    (alert_ids : List String) (m : Message) :
    ((enrich_message pd now m).text.isSome = true →
      o.get_embedding ((enrich_message pd now m).text.getD "") = [] →
      (process_batch_message o pd now alert_ids m).2.2 = [])
  ∧ ((process_batch_message o pd now alert_ids m).2.2 = [] ∨
     (process_batch_message o pd now alert_ids m).2.2 = [Ev.vecWrite ""] ∨
     ∃ pid ok, pid ≠ "" ∧
       (process_batch_message o pd now alert_ids m).2.2 =
         [Ev.vecWrite pid, Ev.dbWrite ok]) := by
  have hne := enrich_username_ne pd now m "unknown"
  constructor
  · intro _ hemb
    simp only [process_batch_message, if_neg hne]
    cases htext : (enrich_message pd now m).text with
    | none => rfl
    | some t =>
      simp [htext] at hemb
      simp [hemb]
  · simp only [process_batch_message, if_neg hne]
    cases htext : (enrich_message pd now m).text with
    | none => left; rfl
    | some t =>
      dsimp only
      by_cases hemb : o.get_embedding t = []
      · simp [hemb]
      · right
        have := save_with_verification_shape o (enrich_message pd now m)
          { o.analyze_message (enrich_message pd now m) with
            message_id := some ((enrich_message pd now m).message_id.getD "") }
          (o.get_embedding t)
        split_ifs <;> simpa using this

/-- C7 (witness): with a falsy embedding result, processing a concrete
message attempts no store write at all. -/
theorem dual_write_discipline_witness :
    (process_batch_message oEmbNone pd0 now0 [] msgBob).2.2 = [] :=
  (dual_write_discipline oEmbNone pd0 now0 [] msgBob).1 rfl rfl

/-! ## Claim C4 -/

/-- C4: Tier 2 keeps exactly the messages whose id is reported by neither
store (union semantics — an id reported by the vector store only is filtered
out), and the divergence log contains exactly the ids present in one store
but not the other; the logging is a pure computation separate from the
filter, so it cannot fail the batch. -/
theorem external_dedup_union (pg qd : List String) (msgs : List Message)
    (m : Message) (i : String) :
    (m ∈ remove_external_duplicates pg qd msgs ↔
      m ∈ msgs ∧ m.message_id.getD "" ∉ pg ∧ m.message_id.getD "" ∉ qd)
  ∧ (i ∈ (debug_inconsistencies pg qd).1 ↔ i ∈ pg ∧ i ∉ qd)
  ∧ (i ∈ (debug_inconsistencies pg qd).2 ↔ i ∈ qd ∧ i ∉ pg) := by
  refine ⟨?_, ?_, ?_⟩ <;>
    simp [remove_external_duplicates, debug_inconsistencies, List.mem_filter,
      not_or]

/-! ## Claim C3 -/

/-- Tier-1 membership: an id survives `_remove_internal_duplicates` over the
carried `seen_ids` iff it occurs in the input and is not already seen. -/
theorem remove_internal_duplicates_aux_mem (l : List Message) :
    ∀ (seen : List String) (x : String),
      x ∈ (remove_internal_duplicates_aux seen l).map (fun m => m.message_id.getD "") ↔
        (x ∈ l.map (fun m => m.message_id.getD "") ∧ x ∉ seen) := by
  induction l with
  | nil => intro seen x; simp [remove_internal_duplicates_aux]
  | cons m rest ih =>
    intro seen x
    simp only [remove_internal_duplicates_aux]
    by_cases h : m.message_id.getD "" ∈ seen
    · rw [if_pos h, ih]
      simp only [List.map_cons, List.mem_cons]
      constructor
      · tauto
      · rintro ⟨hx | hx, hs⟩
        · exact absurd (hx ▸ h) hs
        · exact ⟨hx, hs⟩
    · rw [if_neg h]
      simp only [List.map_cons, List.mem_cons, ih, List.mem_cons]
      by_cases hx : x = m.message_id.getD ""
      · subst hx; tauto
      · simp [hx]

/-- Tier-1 output ids are duplicate-free. -/
theorem remove_internal_duplicates_aux_nodup (l : List Message) :
    ∀ (seen : List String),
      ((remove_internal_duplicates_aux seen l).map (fun m => m.message_id.getD "")).Nodup := by
  induction l with
  | nil => intro seen; simp [remove_internal_duplicates_aux]
  | cons m rest ih =>
    intro seen
    simp only [remove_internal_duplicates_aux]
    by_cases h : m.message_id.getD "" ∈ seen
    · rw [if_pos h]; exact ih seen
    · rw [if_neg h]
      simp only [List.map_cons, List.nodup_cons]
      refine ⟨?_, ih _⟩
      intro hmem
      have := (remove_internal_duplicates_aux_mem rest _ _).mp hmem
      simp at this

/-- Tier-1 output length is the number of distinct unseen ids. -/
theorem remove_internal_duplicates_aux_length (l : List Message) :
    ∀ (seen : List String),
      (remove_internal_duplicates_aux seen l).length =
        ((l.map (fun m => m.message_id.getD "")).toFinset \ seen.toFinset).card := by
  induction l with
  | nil => intro seen; simp [remove_internal_duplicates_aux]
  | cons m rest ih =>
    intro seen
    simp only [remove_internal_duplicates_aux]
    by_cases h : m.message_id.getD "" ∈ seen
    · rw [if_pos h, ih]
      simp only [List.map_cons, List.toFinset_cons]
      rw [Finset.insert_sdiff_of_mem _ (by simpa using h)]
    · rw [if_neg h]
      simp only [List.length_cons, ih, List.map_cons, List.toFinset_cons]
      rw [Finset.insert_sdiff_of_not_mem _ (by simpa using h), Finset.sdiff_insert]
      set s := (rest.map (fun m => m.message_id.getD "")).toFinset \ seen.toFinset with hs
      by_cases ha : m.message_id.getD "" ∈ s
      · rw [Finset.card_erase_of_mem ha, Finset.insert_eq_self.mpr ha]
        have : 0 < s.card := Finset.card_pos.mpr ⟨_, ha⟩
        omega
      · rw [Finset.erase_eq_of_not_mem ha, Finset.card_insert_of_not_mem ha]

/-- C3 (amended): on the non-fresh path `filter_new_messages` applies Tier 1
(intra-batch) and then Tier 2 (cross-store) in that fixed order, and Tier 1
reduces any batch to one message per distinct id (duplicate-free ids, length
the count of distinct ids); but the fresh-collection bypass returns every
enriched message untouched, skipping Tier 1 as well as Tier 2. -/
theorem dedup_tiers_order (pd : String → Option DT) (now : DT)
    (pg_query qd_query : List Message → List String) (msgs l : List Message) :
    (filter_new_messages pd now true pg_query qd_query msgs =
      msgs.map (fun m => enrich_message pd now m))
  ∧ (filter_new_messages pd now false pg_query qd_query msgs =
      remove_external_duplicates
        (pg_query (remove_internal_duplicates (msgs.map (fun m => enrich_message pd now m))))
        (qd_query (remove_internal_duplicates (msgs.map (fun m => enrich_message pd now m))))
        (remove_internal_duplicates (msgs.map (fun m => enrich_message pd now m))))
  ∧ ((remove_internal_duplicates l).map (fun m => m.message_id.getD "")).Nodup
  ∧ (remove_internal_duplicates l).length =
      (l.map (fun m => m.message_id.getD "")).toFinset.card := by
  refine ⟨rfl, rfl, remove_internal_duplicates_aux_nodup l [], ?_⟩
  have := remove_internal_duplicates_aux_length l []
  simpa [remove_internal_duplicates] using this

/-- C3 (counterexample): with a fresh vector collection, a batch holding the
same raw message twice comes back with both copies (the bypass skipped
Tier 1), although it contains a single distinct `message_id`. -/
theorem fresh_bypass_skips_tier1_cex :
    (filter_new_messages pd0 now0 true (fun _ => []) (fun _ => [])
        [msgBob, msgBob]).length = 2
  ∧ ((filter_new_messages pd0 now0 true (fun _ => []) (fun _ => [])
        [msgBob, msgBob]).map (fun m => m.message_id.getD "")).toFinset.card = 1 := by
  constructor
  · rfl
  · decide

/-! ## Claim C6 -/

/-- C6 (amended): the batch path's `_calculate_severity` implements the
spec's `>=` thresholds, but the realtime path's `_calculate_priority` uses
strict `>` at every boundary. -/
theorem severity_and_priority_thresholds (a : Analysis) :
    (calculate_severity a = "CRITICAL" ↔
      a.toxicity_score ≥ 0.8 ∨ a.spam_probability ≥ 0.9)
  ∧ (calculate_severity a = "HIGH" ↔
      ¬(a.toxicity_score ≥ 0.8 ∨ a.spam_probability ≥ 0.9) ∧
        (a.toxicity_score ≥ 0.6 ∨ a.spam_probability ≥ 0.7))
  ∧ (calculate_severity a = "MEDIUM" ↔
      ¬(a.toxicity_score ≥ 0.8 ∨ a.spam_probability ≥ 0.9) ∧
        ¬(a.toxicity_score ≥ 0.6 ∨ a.spam_probability ≥ 0.7) ∧
        (a.toxicity_score ≥ 0.4 ∨ a.spam_probability ≥ 0.5))
  ∧ (calculate_severity a = "LOW" ↔
      ¬(a.toxicity_score ≥ 0.8 ∨ a.spam_probability ≥ 0.9) ∧
        ¬(a.toxicity_score ≥ 0.6 ∨ a.spam_probability ≥ 0.7) ∧
        ¬(a.toxicity_score ≥ 0.4 ∨ a.spam_probability ≥ 0.5))
  ∧ (calculate_priority a = "CRITICAL" ↔
      a.toxicity_score > 0.8 ∨ a.spam_probability > 0.9)
  ∧ (calculate_priority a = "HIGH" ↔
      ¬(a.toxicity_score > 0.8 ∨ a.spam_probability > 0.9) ∧
        (a.toxicity_score > 0.6 ∨ a.spam_probability > 0.7))
  ∧ (calculate_priority a = "MEDIUM" ↔
      ¬(a.toxicity_score > 0.8 ∨ a.spam_probability > 0.9) ∧
        ¬(a.toxicity_score > 0.6 ∨ a.spam_probability > 0.7) ∧
        (a.toxicity_score > 0.4 ∨ a.spam_probability > 0.5))
  ∧ (calculate_priority a = "LOW" ↔
      ¬(a.toxicity_score > 0.8 ∨ a.spam_probability > 0.9) ∧
        ¬(a.toxicity_score > 0.6 ∨ a.spam_probability > 0.7) ∧
        ¬(a.toxicity_score > 0.4 ∨ a.spam_probability > 0.5)) := by
  refine ⟨?_, ?_, ?_, ?_, ?_, ?_, ?_, ?_⟩ <;>
    · simp only [calculate_severity, calculate_priority]
      split_ifs <;> simp_all

/-- C6 (counterexample): at a toxicity of exactly `0.8` the two paths
disagree — the batch severity is `CRITICAL` but the realtime priority is
only `HIGH`, because `_calculate_priority` compares with strict `>`. -/
theorem priority_boundary_cex :
    calculate_priority { toxicity_score := 0.8 } = "HIGH"
  ∧ calculate_severity { toxicity_score := 0.8 } = "CRITICAL" := by
  constructor <;> · simp only [calculate_priority, calculate_severity]; norm_num

/-! ## Claim C10 -/

/-- C10: `enrich_message` does not preserve an existing `file_source` — with
its default argument (as every pipeline caller invokes it) it overwrites the
parser-assigned value with `"unknown"`. -/
theorem enrich_overwrites_file_source :
    (enrich_message pd0 now0
        { username := some "alice", timestamp_str := some "2025-05-30 19:31:23",
          text := some "hi", file_source := some "chat.log" }).file_source =
      some "unknown"
  ∧ ("chat.log" : String) ≠ "unknown" := by
  refine ⟨by rfl, by decide⟩

/-! ## Claim C9 -/

/-- A pattern absorbed on this line: whenever it matches, its captured
timestamp fails to parse. -/
def matchBad (now : DT) (line : String)
    (p : List Char → Option (String × String × String)) : Prop :=
  ∀ g, p line.toList = some g → parse_timestamp now g.1 = none

/-- The pattern loop steps over an absorbed pattern and keeps scanning. -/
theorem tryAux_skip (now : DT) (line : String)
    (p : List Char → Option (String × String × String))
    (ps : List (List Char → Option (String × String × String))) (i : Nat)
    (h : matchBad now line p) :
    tryPatternsAux now line i (p :: ps) = tryPatternsAux now line (i + 1) ps := by
  cases hm : p line.toList with
  | none => simp only [tryPatternsAux, hm]
  | some g => simp only [tryPatternsAux, hm, h g hm]

/-- A failed full outcome means the pattern is absorbed. -/
theorem matchBad_of_patternFull_none (now : DT) (line : String) (i : Nat)
    (p : List Char → Option (String × String × String))
    (hp : patterns.get? i = some p)
    (h : patternFull now i line = none) : matchBad now line p := by
  intro g hg
  unfold patternFull at h
  simp only [hp, hg] at h
  exact Option.map_eq_none'.mp h

/-- Decomposition of a successful full outcome of pattern `i`. -/
theorem patternFull_some_elim (now : DT) (line : String) (i : Nat) (r : Message)
    (p : List Char → Option (String × String × String))
    (hp : patterns.get? i = some p)
    (h : patternFull now i line = some r) :
    ∃ g ts, p line.toList = some g ∧ parse_timestamp now g.1 = some ts ∧
      r = mkParsed line i g.1 g.2.1 g.2.2 ts := by
  unfold patternFull at h
  simp only [hp] at h
  cases hm : p line.toList with
  | none =>
    simp only [hm] at h
    exact Option.noConfusion h
  | some g =>
    simp only [hm] at h
    obtain ⟨ts, hts, heq⟩ := Option.map_eq_some'.mp h
    exact ⟨g, ts, rfl, hts, heq.symm⟩

/-- The pattern loop, started at a suffix, returns the first full success
(match and valid timestamp) at or after its start index. -/
theorem tryAux_first (now : DT) (line : String) :
    ∀ (ps : List (List Char → Option (String × String × String))) (i : Nat),
      ps = patterns.drop i →
      ∀ (j : Nat) (r : Message), patternFull now j line = some r → i ≤ j →
        (∀ k, i ≤ k → k < j → patternFull now k line = none) →
        tryPatternsAux now line i ps = some r := by
  intro ps
  induction ps with
  | nil =>
    intro i hsuf j r hj hij _
    exfalso
    have hlen : patterns.length ≤ i := by
      have := congrArg List.length hsuf
      simp only [List.length_nil, List.length_drop] at this
      omega
    have hne : patterns.get? j ≠ none := by
      intro hn
      unfold patternFull at hj
      simp only [hn] at hj
      exact Option.noConfusion hj
    have hjlt : j < patterns.length := by
      by_contra hge
      exact hne (List.get?_eq_none.mpr (by omega))
    omega
  | cons p ps' ih =>
    intro i hsuf j r hj hij hnone
    have hpi : patterns.get? i = some p := by
      have h0 : (patterns.drop i).get? 0 = some p := by rw [← hsuf]; rfl
      rwa [List.get?_eq_getElem?, List.getElem?_drop, Nat.add_zero,
        ← List.get?_eq_getElem?] at h0
    have hsuf' : ps' = patterns.drop (i + 1) := by
      have h1 : (patterns.drop i).drop 1 = ps' := by rw [← hsuf]; rfl
      rw [List.drop_drop] at h1
      exact h1.symm
    rcases Nat.lt_or_ge i j with hlt | hge
    · have hbad : matchBad now line p :=
        matchBad_of_patternFull_none now line i p hpi (hnone i le_rfl hlt)
      rw [tryAux_skip now line p ps' i hbad]
      exact ih (i + 1) hsuf' j r hj hlt (fun k hk1 hk2 => hnone k (by omega) hk2)
    · have hij' : i = j := by omega
      subst hij'
      obtain ⟨g, ts, hg, hts, hr⟩ := patternFull_some_elim now line i r p hpi hj
      simp only [tryPatternsAux, hg, hts, hr]

/-- The pattern loop returns nothing when every pattern fails fully. -/
theorem tryAux_none (now : DT) (line : String) :
    ∀ (ps : List (List Char → Option (String × String × String))) (i : Nat),
      ps = patterns.drop i →
      (∀ j, j < patterns.length → patternFull now j line = none) →
      tryPatternsAux now line i ps = none := by
  intro ps
  induction ps with
  | nil => intro i _ _; rfl
  | cons p ps' ih =>
    intro i hsuf hall
    have hpi : patterns.get? i = some p := by
      have h0 : (patterns.drop i).get? 0 = some p := by rw [← hsuf]; rfl
      rwa [List.get?_eq_getElem?, List.getElem?_drop, Nat.add_zero,
        ← List.get?_eq_getElem?] at h0
    have hilt : i < patterns.length := by
      by_contra hge
      rw [List.get?_eq_none.mpr (by omega)] at hpi
      exact absurd hpi (by simp)
    have hsuf' : ps' = patterns.drop (i + 1) := by
      have h1 : (patterns.drop i).drop 1 = ps' := by rw [← hsuf]; rfl
      rw [List.drop_drop] at h1
      exact h1.symm
    rw [tryAux_skip now line p ps' i
      (matchBad_of_patternFull_none now line i p hpi (hall i hilt))]
    exact ih (i + 1) hsuf' hall

/-- C9: `_parse_line` is a total function into an optional message (parse
failures are the `none` outcome, never an exception); the result is the
first pattern whose match also yields a valid timestamp — a pattern that
matches but carries a malformed timestamp is absorbed and the remaining
patterns are still tried; when no pattern succeeds fully, a line containing
a colon yields the low-confidence `bot_or_unknown` message stamped with the
current time in non-debug mode, while debug mode rejects the same line. -/
theorem parse_line_scan_and_fallback (now : DT) (d : Bool) (line : String)
    (i : Nat) (r : Message) :
    (patternFull now i line = some r →
      (∀ j, j < i → patternFull now j line = none) →
      parse_line now d line = some r)
  ∧ ((∀ j, j < patterns.length → patternFull now j line = none) →
      (parse_line now true line = none)
      ∧ (line.toList.contains ':' = true →
          ∃ msg, parse_line now false line = some msg ∧
            msg.username = some "bot_or_unknown" ∧
            msg.timestamp = some (TsVal.dt now) ∧
            msg.timestamp_str = some "unknown" ∧
            msg.pattern_used = some (-1))
      ∧ (line.toList.contains ':' = false → parse_line now d line = none)) := by
  constructor
  · intro hi hprev
    unfold parse_line
    rw [tryAux_first now line patterns 0 (List.drop_zero patterns).symm i r hi
      (Nat.zero_le i) (fun k _ hk => hprev k hk)]
  · intro hall
    have hnone := tryAux_none now line patterns 0 (List.drop_zero patterns).symm hall
    refine ⟨?_, ?_, ?_⟩
    · unfold parse_line
      rw [hnone]
      rfl
    · intro hc
      unfold parse_line
      rw [hnone]
      simp only [hc]
      exact ⟨_, rfl, rfl, rfl, rfl, rfl⟩
    · intro hc
      unfold parse_line
      rw [hnone]
      cases d <;> · simp only [hc]; rfl

/-- C9 (witness): a well-formed line parses to its pattern-0 message; on a
line whose month field is malformed, pattern 1 matches but its timestamp is
rejected — the line falls through every pattern and, containing a colon, is
rejected in debug mode but produces the `bot_or_unknown` fallback otherwise. -/
theorem parse_line_scan_and_fallback_witness :
    parse_line now0 false "[2025-05-30 19:31:23] <alice> hello world" =
      some (mkParsed "[2025-05-30 19:31:23] <alice> hello world" 0
        "2025-05-30 19:31:23" "alice" "hello world" ⟨2025, 5, 30, 19, 31, 23, 0⟩)
  ∧ parse_line now0 true "2025-13-30 19:31:23 [mod]: hi" = none
  ∧ (∃ msg, parse_line now0 false "2025-13-30 19:31:23 [mod]: hi" = some msg ∧
      msg.username = some "bot_or_unknown" ∧
      msg.timestamp = some (TsVal.dt now0) ∧
      msg.timestamp_str = some "unknown" ∧
      msg.pattern_used = some (-1))
  ∧ (pat1 "2025-13-30 19:31:23 [mod]: hi".toList).isSome = true
  ∧ parse_timestamp now0 "2025-13-30 19:31:23" = none :=
  ⟨(parse_line_scan_and_fallback now0 false
      "[2025-05-30 19:31:23] <alice> hello world" 0
      (mkParsed "[2025-05-30 19:31:23] <alice> hello world" 0
        "2025-05-30 19:31:23" "alice" "hello world" ⟨2025, 5, 30, 19, 31, 23, 0⟩)).1
    (by decide) (by decide),
   ((parse_line_scan_and_fallback now0 true
      "2025-13-30 19:31:23 [mod]: hi" 0 msgBob).2 (by decide)).1,
   ((parse_line_scan_and_fallback now0 false
      "2025-13-30 19:31:23 [mod]: hi" 0 msgBob).2 (by decide)).2.1 (by decide),
   by decide, by decide⟩

/-! ## Claim C8 -/

/-- `readlines` splitting of a newline-terminated line followed by the rest. -/
theorem splitLinesKeepAux_line (rest : List Char) :
    ∀ (l acc : List Char), ('\n' : Char) ∉ l →
      splitLinesKeepAux (l ++ '\n' :: rest) acc =
        (acc.reverse ++ l ++ ['\n']) :: splitLinesKeepAux rest [] := by
  intro l
  induction l with
  | nil => intro acc _; simp [splitLinesKeepAux]
  | cons c l ih =>
    intro acc h
    have hc : c ≠ '\n' := by
      intro hcc
      exact h (hcc ▸ List.mem_cons_self c l)
    have hl : ('\n' : Char) ∉ l := fun hm => h (List.mem_cons_of_mem c hm)
    simp only [List.cons_append, splitLinesKeepAux, if_neg hc, List.append_eq]
    rw [ih (c :: acc) hl]
    simp

/-- `readlines` on appended newline-terminated lines yields exactly those
lines (with their terminators). -/
theorem splitLinesKeep_concat (lines : List (List Char))
    (h : ∀ l ∈ lines, ('\n' : Char) ∉ l) :
    splitLinesKeep (lines.flatMap (fun l => l ++ ['\n'])) =
      lines.map (fun l => l ++ ['\n']) := by
  induction lines with
  | nil => rfl
  | cons l ls ih =>
    have h1 : ('\n' : Char) ∉ l := h l (List.mem_cons_self l ls)
    have h2 : ∀ x ∈ ls, ('\n' : Char) ∉ x := fun x hx => h x (List.mem_cons_of_mem l hx)
    simp only [List.flatMap_cons]
    have : (l ++ ['\n']) ++ ls.flatMap (fun l => l ++ ['\n']) =
        l ++ '\n' :: ls.flatMap (fun l => l ++ ['\n']) := by simp
    rw [this]
    unfold splitLinesKeep
    rw [splitLinesKeepAux_line _ l [] h1]
    simp only [List.reverse_nil, List.nil_append, List.map_cons]
    rw [← splitLinesKeep, ih h2]

/-- `strip` erases a trailing newline. -/
theorem pyStrip_append_newline (l : List Char) :
    pyStrip (String.mk (l ++ ['\n'])) = pyStrip (String.mk l) := by
  unfold pyStrip
  have htl : (String.mk (l ++ ['\n'])).toList = l ++ ['\n'] := rfl
  have htl2 : (String.mk l).toList = l := rfl
  rw [htl, htl2, List.dropWhile_append]
  split_ifs with he
  · simp only [List.isEmpty_iff] at he
    rw [he]
    simp [isPySpace, he]
  · simp only [List.reverse_append, List.reverse_cons, List.reverse_nil,
      List.nil_append, List.singleton_append]
    simp [List.dropWhile, isPySpace]

/-- `filterMap` with a never-failing function preserves length. -/
theorem filterMap_length_of_isSome {α β : Type} (f : α → Option β) :
    ∀ (l : List α), (∀ x ∈ l, (f x).isSome) → (l.filterMap f).length = l.length := by
  intro l
  induction l with
  | nil => intro _; rfl
  | cons x xs ih =>
    intro h
    have hx := h x (List.mem_cons_self x xs)
    cases hfx : f x with
    | none => rw [hfx] at hx; simp at hx
    | some b =>
      rw [List.filterMap_cons, hfx]
      simp only [List.length_cons]
      rw [ih (fun y hy => h y (List.mem_cons_of_mem x hy))]

/-- C8: with the cursor at the old end of file, a change event after N
parseable lines were appended reads exactly those N lines, feeds their N
parsed messages onward once, and advances the cursor to the new end of file;
a second event with no new bytes reads nothing, feeds nothing, and leaves
the cursor where it was — duplicate delivery is harmless. -/
theorem tailer_reads_exactly_new_lines (now : DT) (name : String)
    (old : List Char) (lines : List (List Char))
    (hnl : ∀ l ∈ lines, ('\n' : Char) ∉ l)
    (hne : lines ≠ [])
    (hstrip : ∀ l ∈ lines, pyStrip (String.mk l) ≠ "")
    (hparse : ∀ l ∈ lines, (parse_line now false (pyStrip (String.mk l))).isSome) :
    (process_new_lines now name (old ++ lines.flatMap (fun l => l ++ ['\n']))
        old.length).2 = (old ++ lines.flatMap (fun l => l ++ ['\n'])).length
  ∧ splitLinesKeep ((old ++ lines.flatMap (fun l => l ++ ['\n'])).drop old.length) =
      lines.map (fun l => l ++ ['\n'])
  ∧ (process_new_lines now name (old ++ lines.flatMap (fun l => l ++ ['\n']))
        old.length).1 =
      lines.filterMap (fun l => (parse_line now false (pyStrip (String.mk l))).map
        (fun m => { m with file_source := some name }))
  ∧ (process_new_lines now name (old ++ lines.flatMap (fun l => l ++ ['\n']))
        old.length).1.length = lines.length
  ∧ process_new_lines now name (old ++ lines.flatMap (fun l => l ++ ['\n']))
      (old ++ lines.flatMap (fun l => l ++ ['\n'])).length =
      ([], (old ++ lines.flatMap (fun l => l ++ ['\n'])).length) := by
  set added := lines.flatMap (fun l => l ++ ['\n']) with hadded
  have hdrop : (old ++ added).drop old.length = added := List.drop_left old added
  have hsplit : splitLinesKeep added = lines.map (fun l => l ++ ['\n']) :=
    splitLinesKeep_concat lines hnl
  have hmax : max old.length (old ++ added).length = (old ++ added).length :=
    Nat.max_eq_right (by simp)
  have hnonempty : (lines.map (fun l => l ++ ['\n'])).isEmpty = false := by
    cases lines with
    | nil => exact absurd rfl hne
    | cons a as => rfl
  have hF : ∀ l ∈ lines,
      ((fun lcs =>
        if pyStrip (String.mk lcs) = "" then none
        else (parse_line now false (pyStrip (String.mk lcs))).map
          (fun m => { m with file_source := some name })) ∘ (fun l => l ++ ['\n'])) l =
      (parse_line now false (pyStrip (String.mk l))).map
        (fun m => { m with file_source := some name }) := by
    intro l hl
    simp only [Function.comp_apply, pyStrip_append_newline]
    rw [if_neg (hstrip l hl)]
  have hmsgs : (process_new_lines now name (old ++ added) old.length).1 =
      lines.filterMap (fun l => (parse_line now false (pyStrip (String.mk l))).map
        (fun m => { m with file_source := some name })) := by
    unfold process_new_lines
    rw [hdrop, hsplit]
    simp only [hnonempty, Bool.false_eq_true, if_false]
    rw [List.filterMap_map]
    exact List.filterMap_congr hF
  refine ⟨?_, ?_, hmsgs, ?_, ?_⟩
  · unfold process_new_lines
    rw [hdrop, hsplit]
    simp only [hnonempty, Bool.false_eq_true, if_false]
    exact hmax
  · rw [hdrop]
    exact hsplit
  · rw [hmsgs]
    refine filterMap_length_of_isSome _ lines (fun l hl => ?_)
    have := hparse l hl
    simpa using this
  · unfold process_new_lines
    rw [List.drop_length]
    simp [splitLinesKeep, splitLinesKeepAux]

/-- C8 (witness): appending three concrete lines to a tailed file and firing
a change event feeds exactly three messages onward; a no-op second event
feeds zero. -/
theorem tailer_reads_exactly_new_lines_witness :
    (process_new_lines now0 "chat.log"
        ("old line\n".toList ++
          (["[2025-05-30 19:31:23] <a> x1".toList,
            "2025-05-30 19:31:24 mod2: x2".toList,
            "hello: world".toList].flatMap (fun l => l ++ ['\n'])))
        ("old line\n".toList).length).1.length = 3
  ∧ process_new_lines now0 "chat.log"
      ("old line\n".toList ++
        (["[2025-05-30 19:31:23] <a> x1".toList,
          "2025-05-30 19:31:24 mod2: x2".toList,
          "hello: world".toList].flatMap (fun l => l ++ ['\n'])))
      ("old line\n".toList ++
        (["[2025-05-30 19:31:23] <a> x1".toList,
          "2025-05-30 19:31:24 mod2: x2".toList,
          "hello: world".toList].flatMap (fun l => l ++ ['\n']))).length =
      ([], ("old line\n".toList ++
        (["[2025-05-30 19:31:23] <a> x1".toList,
          "2025-05-30 19:31:24 mod2: x2".toList,
          "hello: world".toList].flatMap (fun l => l ++ ['\n']))).length) := by
  have h := tailer_reads_exactly_new_lines now0 "chat.log" "old line\n".toList
    ["[2025-05-30 19:31:23] <a> x1".toList,
     "2025-05-30 19:31:24 mod2: x2".toList,
     "hello: world".toList]
    (by decide) (by decide) (by decide) (by decide)
  exact ⟨h.2.2.2.1, h.2.2.2.2⟩

end TMT
